import Mathlib

/-!
Verification development for the PDF learning pipeline.

The definitions below are a shallow embedding of the Python sources:

* `enhanced_ai_processor.py` — per-topic content generation with minimum-count
  backfill, duplicate removal and running identifier assignment
  (`process_pdf_with_structured_content`, `_generate_mcqs_for_topic`,
  `_generate_subjective_for_topic`, `_generate_concepts_for_topic` and the
  `_generate_additional_*` helpers).
* `parallel_pdf_processor.py` — the parallel run loop
  (`process_all_pdfs_parallel`, `process_single_pdf`,
  `create_initial_index_page`, `update_index_page`, `deploy_to_github_pages`).

External calls (the hosted model API together with its JSON parsing, the PDF
extractor, the renderer) are modelled as oracles supplying the already-parsed
values those calls produce in the source; API and parse failures surface in
the source as an empty parsed list, which the oracles can return.  Concurrent
completion of jobs is modelled by quantifying over the completion order, a
permutation of the input list; the lock makes each completion's
append-and-rewrite atomic, which is how a completion step is embedded here.
-/

namespace Learning

/-- A multiple-choice item as parsed from the synthesizer response
(`_parse_mcqs_response`): the fields of one `mcqs` JSON object. -/
structure MCQ where
  id : Nat
  question : String
  options : List String
  correctAnswer : Nat
deriving DecidableEq

/-- A subjective item as parsed from the synthesizer response
(`_parse_subjective_response`). -/
structure SubjectiveQ where
  id : Nat
  question : String
  answer : String
  marks : String
  important : Bool
deriving DecidableEq

/-- A concept item; `topic` is filled in by the pipeline after generation
(`concept['topic'] = ...` in `process_pdf_with_structured_content`). -/
structure ConceptItem where
  title : String
  description : String
  topic : String
deriving DecidableEq

/-- Python `str.lower()`, character-wise over the string's characters. -/
def pyLower (s : String) : String := String.mk (s.data.map Char.toLower)

/-- Python `str.strip()`: drop whitespace from both ends. -/
def pyStrip (s : String) : String :=
  String.mk (((s.data.dropWhile Char.isWhitespace).reverse.dropWhile Char.isWhitespace).reverse)

/-- Python `question.lower().strip()`: lowercase, then trim surrounding
whitespace — the key used by the duplicate-removal loops. -/
def normalizeQ (s : String) : String := pyStrip (pyLower s)

/-- `for i, mcq in enumerate(mcqs): mcq['id'] = start_id + i` in
`_generate_mcqs_for_topic`. -/
def reassignMcqIds : List MCQ → Nat → List MCQ
  | [], _ => []
  | m :: rest, i => { m with id := i } :: reassignMcqIds rest (i + 1)

/-- `for i, question in enumerate(subjective): question['id'] = start_id + i`
in `_generate_subjective_for_topic`. -/
def reassignSubjIds : List SubjectiveQ → Nat → List SubjectiveQ
  | [], _ => []
  | q :: rest, i => { q with id := i } :: reassignSubjIds rest (i + 1)

/-- `_generate_additional_mcqs(text, count, start_id)`: deterministic
placeholder MCQs with sequential ids and titles. -/
def generateAdditionalMcqs (count : Nat) (startId : Nat) : List MCQ :=
  (List.range count).map fun i =>
    { id := startId + i
      question := s!"Additional MCQ question {startId + i}?"
      options := ["Option A", "Option B", "Option C", "Option D"]
      correctAnswer := 0 }

/-- `_generate_additional_subjective(text, count, start_id)`. -/
def generateAdditionalSubjective (count : Nat) (startId : Nat) : List SubjectiveQ :=
  (List.range count).map fun i =>
    { id := startId + i
      question := s!"Additional subjective question {startId + i}?"
      answer := s!"Comprehensive answer for question {startId + i}."
      marks := "3 Marks"
      important := false }

/-- `_generate_additional_concepts(text, count)`. -/
def generateAdditionalConcepts (count : Nat) : List ConceptItem :=
  (List.range count).map fun i =>
    { title := s!"Additional Concept {i + 1}"
      description := "Important educational concept extracted from the textbook content."
      topic := "" }

/-- The duplicate-removal loop of `_generate_mcqs_for_topic`: keep the first
item for each normalized question text, carrying the `seen_questions` set. -/
def dedupMcqs : List MCQ → List String → List MCQ
  | [], _ => []
  | m :: rest, seen =>
    if normalizeQ m.question ∈ seen then dedupMcqs rest seen
    else m :: dedupMcqs rest (normalizeQ m.question :: seen)

/-- The duplicate-removal loop of `_generate_subjective_for_topic`. -/
def dedupSubjs : List SubjectiveQ → List String → List SubjectiveQ
  | [], _ => []
  | q :: rest, seen =>
    if normalizeQ q.question ∈ seen then dedupSubjs rest seen
    else q :: dedupSubjs rest (normalizeQ q.question :: seen)

/-- The state of `_generate_mcqs_for_topic` just before duplicate removal:
parsed items with reassigned ids, topped up by one backfill pass when the
parsed batch is short of `minMcqs`. -/
def mcqsWithBackfill (parsed : List MCQ) (minMcqs startId : Nat) : List MCQ :=
  let mcqs := reassignMcqIds parsed startId
  if mcqs.length < minMcqs then
    mcqs ++ generateAdditionalMcqs (minMcqs - mcqs.length) (startId + mcqs.length)
  else mcqs

/-- `_generate_mcqs_for_topic` (lines 479–505): reassign ids, backfill once
if short, remove duplicates, and return `unique_mcqs[:min_mcqs]`. -/
def generateMcqsForTopic (parsed : List MCQ) (minMcqs startId : Nat) : List MCQ :=
  (dedupMcqs (mcqsWithBackfill parsed minMcqs startId) []).take minMcqs

/-- The state of `_generate_subjective_for_topic` just before duplicate
removal. -/
def subjsWithBackfill (parsed : List SubjectiveQ) (minSubj startId : Nat) : List SubjectiveQ :=
  let subjective := reassignSubjIds parsed startId
  if subjective.length < minSubj then
    subjective ++ generateAdditionalSubjective (minSubj - subjective.length) (startId + subjective.length)
  else subjective

/-- `_generate_subjective_for_topic` (lines 556–582). -/
def generateSubjectiveForTopic (parsed : List SubjectiveQ) (minSubj startId : Nat) : List SubjectiveQ :=
  (dedupSubjs (subjsWithBackfill parsed minSubj startId) []).take minSubj

/-- `_generate_text_only_concepts` / `_generate_concepts_for_topic` after
parsing (image extraction is skipped in the source, so the text-only path
runs): backfill once if short, then truncate to `minConcepts`. -/
def generateConceptsForTopic (parsed : List ConceptItem) (minConcepts : Nat) : List ConceptItem :=
  let concepts :=
    if parsed.length < minConcepts then
      parsed ++ generateAdditionalConcepts (minConcepts - parsed.length)
    else parsed
  concepts.take minConcepts

/-- One entry of the topic structure returned by `_identify_topic_headings`. -/
structure TopicInfo where
  mainTopic : String
  subtopics : List String
deriving DecidableEq

/-- One unit of generation work in `process_pdf_with_structured_content`:
either a main topic without subtopics, or a single subtopic.  `conceptTopic`
is the label written into each generated concept. -/
structure Leaf where
  label : String
  conceptTopic : String
  isSubtopic : Bool
deriving DecidableEq

/-- The sequence of generation units visited by the nested loops of
`process_pdf_with_structured_content`, in document order. -/
def leavesOf : List TopicInfo → List Leaf
  | [] => []
  | t :: rest =>
    (if t.subtopics.isEmpty then
      [{ label := t.mainTopic, conceptTopic := t.mainTopic, isSubtopic := false }]
    else
      t.subtopics.map fun s =>
        { label := s, conceptTopic := t.mainTopic ++ " → " ++ s, isSubtopic := true })
    ++ leavesOf rest

/-- The minimum item count requested for a generation unit: `min_mcqs=2` /
`min_subjective=2` for a subtopic, `3` for a main topic without subtopics. -/
def leafMin (l : Leaf) : Nat := if l.isSubtopic then 2 else 3

/-- Oracle for the synthesizer: the parsed batches returned by the
consecutive API calls of one document run, indexed by the position of the
generation unit in document order.  (A failed API call or unparseable
response surfaces as an empty list in the source.) -/
structure Synth where
  conceptResponses : Nat → List ConceptItem
  mcqResponses : Nat → List MCQ
  subjectiveResponses : Nat → List SubjectiveQ

/-- The `stats` dictionary of the returned bundle. -/
structure Stats where
  totalConcepts : Nat
  totalMcqs : Nat
  totalSubjective : Nat
  mainTopics : Nat
  totalSubtopics : Nat
deriving DecidableEq

/-- The dictionary returned by `process_pdf_with_structured_content`. -/
structure ContentBundle where
  concepts : List ConceptItem
  mcqs : List MCQ
  subjective : List SubjectiveQ
  stats : Stats
deriving DecidableEq

/-- The accumulators `all_concepts`, `all_mcqs`, `all_subjective` of the
generation loop. -/
structure BundleAcc where
  concepts : List ConceptItem
  mcqs : List MCQ
  subjective : List SubjectiveQ
deriving DecidableEq

/-- One iteration of the generation loop: concepts (min 1, topic label
attached), then MCQs with `start_id = len(all_mcqs) + 1`, then subjective
items with `start_id = len(all_subjective) + 1`. -/
def processLeaf (synth : Synth) (k : Nat) (l : Leaf) (acc : BundleAcc) : BundleAcc :=
  let cs := (generateConceptsForTopic (synth.conceptResponses k) 1).map
      fun c => { c with topic := l.conceptTopic }
  let ms := generateMcqsForTopic (synth.mcqResponses k) (leafMin l) (acc.mcqs.length + 1)
  let ss := generateSubjectiveForTopic (synth.subjectiveResponses k) (leafMin l) (acc.subjective.length + 1)
  { concepts := acc.concepts ++ cs
    mcqs := acc.mcqs ++ ms
    subjective := acc.subjective ++ ss }

/-- The generation loop over all units in document order; `k` counts the
synthesis calls made so far. -/
def processLeaves (synth : Synth) : List Leaf → Nat → BundleAcc → BundleAcc
  | [], _, acc => acc
  | l :: rest, k, acc => processLeaves synth rest (k + 1) (processLeaf synth k l acc)

/-- `sum(len(topic.get('subtopics', [])) for topic in topic_structure)`. -/
def subtopicTotal (ts : List TopicInfo) : Nat :=
  (ts.map fun t => t.subtopics.length).sum

/-- `process_pdf_with_structured_content` (lines 60–145), given the parsed
topic structure and the synthesizer oracle: run the generation loop and
assemble the bundle with its `stats` counts. -/
def processPdfWithStructuredContent (synth : Synth) (ts : List TopicInfo) : ContentBundle :=
  let acc := processLeaves synth (leavesOf ts) 0
      { concepts := [], mcqs := [], subjective := [] }
  { concepts := acc.concepts
    mcqs := acc.mcqs
    subjective := acc.subjective
    stats :=
      { totalConcepts := acc.concepts.length
        totalMcqs := acc.mcqs.length
        totalSubjective := acc.subjective.length
        mainTopics := ts.length
        totalSubtopics := subtopicTotal ts } }

/-! The parallel run loop of `parallel_pdf_processor.py`. -/

/-- The data `process_single_pdf` computes before taking the lock: the
result of `process_pdf_with_structured_content` plus `generate_html_page`,
abstracted to the fields the job actually stores.  `timestamp` stands for
`datetime.now().strftime(...)` at completion. -/
structure ContentOutcome where
  title : String
  icon : String
  filename : String
  stats : Stats
  timestamp : Nat
deriving DecidableEq

/-- Oracle for one run: what the extract-synthesize-render part of
`process_single_pdf` yields for each input path; `none` models the body
raising (e.g. the PDF cannot be opened), which the `except` clause turns
into a logged `None` return. -/
structure JobEnv where
  outcome : String → Option ContentOutcome

/-- The `pdf_info` dictionary appended to `processed_pdfs`. -/
structure JobResult where
  title : String
  icon : String
  filename : String
  stats : Stats
  originalPdf : String
  processedAt : Nat
deriving DecidableEq

/-- Abstract content of the on-disk `index.html`: not yet written, the
initial placeholder page (showing `completed / total`), or the results page
listing the processed documents. -/
inductive IndexContent where
  | absent : IndexContent
  | initialPage (total : Nat) (completed : Nat) : IndexContent
  | resultsPage (entries : List JobResult) : IndexContent
deriving DecidableEq

/-- Observable events of a run, in order. -/
inductive Event where
  | indexWrite (c : IndexContent) : Event
  | jobSuccess (pdf : String) : Event
  | jobFailure (pdf : String) : Event
  | publish : Event
deriving DecidableEq

/-- The shared state of `ParallelPDFLearningSystem` during a run, plus the
event trace and a count of `deploy_to_github_pages` invocations. -/
structure RunState where
  processedPdfs : List JobResult
  indexFile : IndexContent
  publishCount : Nat
  trace : List Event
deriving DecidableEq

/-- The state at the start of `process_all_pdfs_parallel`. -/
def initialState : RunState :=
  { processedPdfs := [], indexFile := IndexContent.absent, publishCount := 0, trace := [] }

/-- `process_single_pdf` up to the lock: build the `pdf_info` record, or
`None` when the body raised. -/
def processSinglePdf (env : JobEnv) (pdf : String) : Option JobResult :=
  match env.outcome pdf with
  | none => none
  | some cd =>
    some { title := cd.title, icon := cd.icon, filename := cd.filename
           stats := cd.stats, originalPdf := pdf, processedAt := cd.timestamp }

/-- `update_index_page`: return without touching the file when
`processed_pdfs` is empty, otherwise rewrite the index with the current
results. -/
def updateIndexPage (st : RunState) : RunState :=
  if st.processedPdfs.isEmpty then st
  else
    { st with
      indexFile := IndexContent.resultsPage st.processedPdfs
      trace := st.trace ++ [Event.indexWrite (IndexContent.resultsPage st.processedPdfs)] }

/-- One job's completion step: on success, under the lock, append the
result to `processed_pdfs` and call `update_index_page`; on failure only
log.  The lock makes this step atomic with respect to other completions. -/
def completeJob (env : JobEnv) (st : RunState) (pdf : String) : RunState :=
  match processSinglePdf env pdf with
  | none => { st with trace := st.trace ++ [Event.jobFailure pdf] }
  | some info =>
    updateIndexPage
      { st with
        processedPdfs := st.processedPdfs ++ [info]
        trace := st.trace ++ [Event.jobSuccess pdf] }

/-- All job completions of a run, folded in completion order. -/
def runJobs (env : JobEnv) : List String → RunState → RunState
  | [], st => st
  | pdf :: rest, st => runJobs env rest (completeJob env st pdf)

/-- `create_initial_index_page(len(pdf_files))`: write the placeholder page
showing `0 / total completed`. -/
def createInitialIndexPage (total : Nat) (st : RunState) : RunState :=
  { st with
    indexFile := IndexContent.initialPage total 0
    trace := st.trace ++ [Event.indexWrite (IndexContent.initialPage total 0)] }

/-- The guard at the end of `process_all_pdfs_parallel`:
`if self.processed_pdfs: self.deploy_to_github_pages()`. -/
def deployIfNonempty (st : RunState) : RunState :=
  if st.processedPdfs.isEmpty then st
  else { st with publishCount := st.publishCount + 1, trace := st.trace ++ [Event.publish] }

/-- `process_all_pdfs_parallel` (lines 77–121): return immediately when no
inputs were found; otherwise write the initial index, run every job
(completions arrive in `completionOrder`, a permutation of the inputs
determined by the scheduler), and deploy once if anything was produced. -/
def processAllPdfsParallel (env : JobEnv) (inputs : List String)
    (completionOrder : List String) : RunState :=
  if inputs.isEmpty then initialState
  else
    deployIfNonempty (runJobs env completionOrder (createInitialIndexPage inputs.length initialState))

/-! Helper lemmas about the per-topic generators. -/

/-- The identifier sequence `start, start+1, ..., start+n-1`. -/
def idsFrom (start n : Nat) : List Nat := (List.range n).map fun i => start + i

lemma idsFrom_length (start n : Nat) : (idsFrom start n).length = n := by
  simp [idsFrom]

lemma idsFrom_append (s n m : Nat) :
    idsFrom s n ++ idsFrom (s + n) m = idsFrom s (n + m) := by
  simp only [idsFrom, List.range_add, List.map_append, List.map_map]
  congr 1
  apply List.map_congr_left
  intro x _
  simp
  omega

lemma idsFrom_take (s n k : Nat) : (idsFrom s n).take k = idsFrom s (min k n) := by
  simp [idsFrom, ← List.map_take, List.take_range]

lemma idsFrom_succ (s n : Nat) : idsFrom s (n + 1) = s :: idsFrom (s + 1) n := by
  simp only [idsFrom, List.range_succ_eq_map, List.map_cons, List.map_map, Nat.add_zero]
  congr 1
  apply List.map_congr_left
  intro x _
  simp only [Function.comp_apply]
  omega

lemma reassignMcqIds_length (l : List MCQ) (i : Nat) :
    (reassignMcqIds l i).length = l.length := by
  induction l generalizing i with
  | nil => rfl
  | cons m rest ih => simp [reassignMcqIds, ih]

lemma reassignMcqIds_map_id (l : List MCQ) (i : Nat) :
    (reassignMcqIds l i).map (fun m => m.id) = idsFrom i l.length := by
  induction l generalizing i with
  | nil => rfl
  | cons m rest ih =>
    simp only [reassignMcqIds, List.map_cons, ih, List.length_cons, idsFrom_succ]

lemma reassignSubjIds_length (l : List SubjectiveQ) (i : Nat) :
    (reassignSubjIds l i).length = l.length := by
  induction l generalizing i with
  | nil => rfl
  | cons q rest ih => simp [reassignSubjIds, ih]

lemma reassignSubjIds_map_id (l : List SubjectiveQ) (i : Nat) :
    (reassignSubjIds l i).map (fun q => q.id) = idsFrom i l.length := by
  induction l generalizing i with
  | nil => rfl
  | cons q rest ih =>
    simp only [reassignSubjIds, List.map_cons, ih, List.length_cons, idsFrom_succ]

lemma generateAdditionalMcqs_length (c s : Nat) :
    (generateAdditionalMcqs c s).length = c := by
  simp [generateAdditionalMcqs]

lemma generateAdditionalMcqs_map_id (c s : Nat) :
    (generateAdditionalMcqs c s).map (fun m => m.id) = idsFrom s c := by
  simp [generateAdditionalMcqs, idsFrom, List.map_map]

lemma generateAdditionalSubjective_length (c s : Nat) :
    (generateAdditionalSubjective c s).length = c := by
  simp [generateAdditionalSubjective]

lemma generateAdditionalSubjective_map_id (c s : Nat) :
    (generateAdditionalSubjective c s).map (fun q => q.id) = idsFrom s c := by
  simp [generateAdditionalSubjective, idsFrom, List.map_map]

lemma mcqsWithBackfill_length (p : List MCQ) (minC sid : Nat) :
    (mcqsWithBackfill p minC sid).length = max p.length minC := by
  simp only [mcqsWithBackfill]
  split <;> rename_i h <;>
    simp only [List.length_append, reassignMcqIds_length,
      generateAdditionalMcqs_length] at h ⊢ <;>
    omega

lemma le_mcqsWithBackfill_length (p : List MCQ) (minC sid : Nat) :
    minC ≤ (mcqsWithBackfill p minC sid).length := by
  rw [mcqsWithBackfill_length]; omega

lemma subjsWithBackfill_length (p : List SubjectiveQ) (minC sid : Nat) :
    (subjsWithBackfill p minC sid).length = max p.length minC := by
  simp only [subjsWithBackfill]
  split <;> rename_i h <;>
    simp only [List.length_append, reassignSubjIds_length,
      generateAdditionalSubjective_length] at h ⊢ <;>
    omega

lemma le_subjsWithBackfill_length (p : List SubjectiveQ) (minC sid : Nat) :
    minC ≤ (subjsWithBackfill p minC sid).length := by
  rw [subjsWithBackfill_length]; omega

lemma mcqsWithBackfill_map_id (p : List MCQ) (minC sid : Nat) :
    (mcqsWithBackfill p minC sid).map (fun m => m.id)
      = idsFrom sid (mcqsWithBackfill p minC sid).length := by
  simp only [mcqsWithBackfill]
  split
  · rename_i h
    simp only [List.map_append, reassignMcqIds_map_id, generateAdditionalMcqs_map_id,
      List.length_append, reassignMcqIds_length, generateAdditionalMcqs_length]
    exact idsFrom_append sid p.length (minC - p.length)
  · simp [reassignMcqIds_map_id, reassignMcqIds_length]

lemma subjsWithBackfill_map_id (p : List SubjectiveQ) (minC sid : Nat) :
    (subjsWithBackfill p minC sid).map (fun q => q.id)
      = idsFrom sid (subjsWithBackfill p minC sid).length := by
  simp only [subjsWithBackfill]
  split
  · rename_i h
    simp only [List.map_append, reassignSubjIds_map_id, generateAdditionalSubjective_map_id,
      List.length_append, reassignSubjIds_length, generateAdditionalSubjective_length]
    exact idsFrom_append sid p.length (minC - p.length)
  · simp [reassignSubjIds_map_id, reassignSubjIds_length]

lemma generateAdditionalConcepts_length (c : Nat) :
    (generateAdditionalConcepts c).length = c := by
  simp [generateAdditionalConcepts]

lemma dedupMcqs_sublist (l : List MCQ) (seen : List String) :
    (dedupMcqs l seen).Sublist l := by
  induction l generalizing seen with
  | nil => simp [dedupMcqs]
  | cons m rest ih =>
    simp only [dedupMcqs]
    split
    · exact (ih seen).trans (List.sublist_cons_self m rest)
    · exact (ih (normalizeQ m.question :: seen)).cons₂ m

lemma dedupSubjs_sublist (l : List SubjectiveQ) (seen : List String) :
    (dedupSubjs l seen).Sublist l := by
  induction l generalizing seen with
  | nil => simp [dedupSubjs]
  | cons q rest ih =>
    simp only [dedupSubjs]
    split
    · exact (ih seen).trans (List.sublist_cons_self q rest)
    · exact (ih (normalizeQ q.question :: seen)).cons₂ q

lemma dedupMcqs_eq_self (l : List MCQ) (seen : List String)
    (h : (l.map fun m => normalizeQ m.question).Nodup)
    (hd : ∀ m ∈ l, normalizeQ m.question ∉ seen) :
    dedupMcqs l seen = l := by
  induction l generalizing seen with
  | nil => rfl
  | cons m rest ih =>
    simp only [List.map_cons, List.nodup_cons, List.mem_map] at h
    simp only [dedupMcqs, if_neg (hd m (List.mem_cons_self m rest))]
    congr 1
    refine ih _ h.2 ?_
    intro x hx
    simp only [List.mem_cons]
    push_neg
    refine ⟨fun hx2 => h.1 ⟨x, hx, hx2⟩, hd x (List.mem_cons_of_mem m hx)⟩

lemma dedupSubjs_eq_self (l : List SubjectiveQ) (seen : List String)
    (h : (l.map fun q => normalizeQ q.question).Nodup)
    (hd : ∀ q ∈ l, normalizeQ q.question ∉ seen) :
    dedupSubjs l seen = l := by
  induction l generalizing seen with
  | nil => rfl
  | cons q rest ih =>
    simp only [List.map_cons, List.nodup_cons, List.mem_map] at h
    simp only [dedupSubjs, if_neg (hd q (List.mem_cons_self q rest))]
    congr 1
    refine ih _ h.2 ?_
    intro x hx
    simp only [List.mem_cons]
    push_neg
    refine ⟨fun hx2 => h.1 ⟨x, hx, hx2⟩, hd x (List.mem_cons_of_mem q hx)⟩

lemma generateMcqsForTopic_length_le (p : List MCQ) (minC sid : Nat) :
    (generateMcqsForTopic p minC sid).length ≤ minC :=
  List.length_take_le minC _

lemma generateSubjectiveForTopic_length_le (p : List SubjectiveQ) (minC sid : Nat) :
    (generateSubjectiveForTopic p minC sid).length ≤ minC :=
  List.length_take_le minC _

lemma generateMcqsForTopic_of_nodup (p : List MCQ) (minC sid : Nat)
    (h : ((mcqsWithBackfill p minC sid).map fun m => normalizeQ m.question).Nodup) :
    generateMcqsForTopic p minC sid = (mcqsWithBackfill p minC sid).take minC := by
  unfold generateMcqsForTopic
  rw [dedupMcqs_eq_self _ [] h (by simp)]

lemma generateSubjectiveForTopic_of_nodup (p : List SubjectiveQ) (minC sid : Nat)
    (h : ((subjsWithBackfill p minC sid).map fun q => normalizeQ q.question).Nodup) :
    generateSubjectiveForTopic p minC sid = (subjsWithBackfill p minC sid).take minC := by
  unfold generateSubjectiveForTopic
  rw [dedupSubjs_eq_self _ [] h (by simp)]

lemma generateMcqsForTopic_length_of_nodup (p : List MCQ) (minC sid : Nat)
    (h : ((mcqsWithBackfill p minC sid).map fun m => normalizeQ m.question).Nodup) :
    (generateMcqsForTopic p minC sid).length = minC := by
  rw [generateMcqsForTopic_of_nodup p minC sid h, List.length_take,
    mcqsWithBackfill_length]
  omega

lemma generateSubjectiveForTopic_length_of_nodup (p : List SubjectiveQ) (minC sid : Nat)
    (h : ((subjsWithBackfill p minC sid).map fun q => normalizeQ q.question).Nodup) :
    (generateSubjectiveForTopic p minC sid).length = minC := by
  rw [generateSubjectiveForTopic_of_nodup p minC sid h, List.length_take,
    subjsWithBackfill_length]
  omega

lemma generateMcqsForTopic_map_id_of_nodup (p : List MCQ) (minC sid : Nat)
    (h : ((mcqsWithBackfill p minC sid).map fun m => normalizeQ m.question).Nodup) :
    (generateMcqsForTopic p minC sid).map (fun m => m.id) = idsFrom sid minC := by
  rw [generateMcqsForTopic_of_nodup p minC sid h, List.map_take,
    mcqsWithBackfill_map_id, idsFrom_take]
  congr 1
  have := le_mcqsWithBackfill_length p minC sid
  omega

lemma generateSubjectiveForTopic_map_id_of_nodup (p : List SubjectiveQ) (minC sid : Nat)
    (h : ((subjsWithBackfill p minC sid).map fun q => normalizeQ q.question).Nodup) :
    (generateSubjectiveForTopic p minC sid).map (fun q => q.id) = idsFrom sid minC := by
  rw [generateSubjectiveForTopic_of_nodup p minC sid h, List.map_take,
    subjsWithBackfill_map_id, idsFrom_take]
  congr 1
  have := le_subjsWithBackfill_length p minC sid
  omega

lemma generateConceptsForTopic_length (p : List ConceptItem) (minC : Nat) :
    (generateConceptsForTopic p minC).length = minC := by
  simp only [generateConceptsForTopic]
  split <;> rename_i h <;>
    simp only [List.length_take, List.length_append, generateAdditionalConcepts_length] <;>
    omega

/-! Run-level bookkeeping for the generation loop. -/

/-- Holds when, along the generation loop started at call index `k` with the
MCQ id counter at `sid`, no per-topic MCQ deduplication ever removes an item
(the post-backfill normalized question texts are distinct at every call). -/
def mcqRunDedupFreeB (synth : Synth) : List Leaf → Nat → Nat → Bool
  | [], _, _ => true
  | l :: rest, k, sid =>
    decide (((mcqsWithBackfill (synth.mcqResponses k) (leafMin l) sid).map
        fun m => normalizeQ m.question).Nodup)
      && mcqRunDedupFreeB synth rest (k + 1)
          (sid + (generateMcqsForTopic (synth.mcqResponses k) (leafMin l) sid).length)

/-- Like `mcqRunDedupFreeB`, for the subjective generator. -/
def subjRunDedupFreeB (synth : Synth) : List Leaf → Nat → Nat → Bool
  | [], _, _ => true
  | l :: rest, k, sid =>
    decide (((subjsWithBackfill (synth.subjectiveResponses k) (leafMin l) sid).map
        fun q => normalizeQ q.question).Nodup)
      && subjRunDedupFreeB synth rest (k + 1)
          (sid + (generateSubjectiveForTopic (synth.subjectiveResponses k) (leafMin l) sid).length)

lemma processLeaves_concepts_length (synth : Synth) (ls : List Leaf) (k : Nat) (acc : BundleAcc) :
    (processLeaves synth ls k acc).concepts.length = acc.concepts.length + ls.length := by
  induction ls generalizing k acc with
  | nil => simp [processLeaves]
  | cons l rest ih =>
    simp only [processLeaves, ih, processLeaf, List.length_append, List.length_map,
      generateConceptsForTopic_length, List.length_cons]
    omega

lemma processLeaves_mcq_length (synth : Synth) (ls : List Leaf) (k : Nat) (acc : BundleAcc)
    (h : mcqRunDedupFreeB synth ls k (acc.mcqs.length + 1) = true) :
    (processLeaves synth ls k acc).mcqs.length = acc.mcqs.length + (ls.map leafMin).sum := by
  induction ls generalizing k acc with
  | nil => simp [processLeaves]
  | cons l rest ih =>
    simp only [mcqRunDedupFreeB, Bool.and_eq_true, decide_eq_true_eq] at h
    have hlen : (generateMcqsForTopic (synth.mcqResponses k) (leafMin l)
        (acc.mcqs.length + 1)).length = leafMin l :=
      generateMcqsForTopic_length_of_nodup _ _ _ h.1
    have htail := h.2
    rw [hlen] at htail
    simp only [processLeaves]
    rw [ih (k + 1) (processLeaf synth k l acc)
      (by simpa only [processLeaf, List.length_append, hlen, Nat.add_assoc,
        Nat.add_comm (leafMin l) 1] using htail)]
    simp only [processLeaf, List.length_append, hlen, List.map_cons, List.sum_cons]
    omega

lemma processLeaves_subj_length (synth : Synth) (ls : List Leaf) (k : Nat) (acc : BundleAcc)
    (h : subjRunDedupFreeB synth ls k (acc.subjective.length + 1) = true) :
    (processLeaves synth ls k acc).subjective.length
      = acc.subjective.length + (ls.map leafMin).sum := by
  induction ls generalizing k acc with
  | nil => simp [processLeaves]
  | cons l rest ih =>
    simp only [subjRunDedupFreeB, Bool.and_eq_true, decide_eq_true_eq] at h
    have hlen : (generateSubjectiveForTopic (synth.subjectiveResponses k) (leafMin l)
        (acc.subjective.length + 1)).length = leafMin l :=
      generateSubjectiveForTopic_length_of_nodup _ _ _ h.1
    have htail := h.2
    rw [hlen] at htail
    simp only [processLeaves]
    rw [ih (k + 1) (processLeaf synth k l acc)
      (by simpa only [processLeaf, List.length_append, hlen, Nat.add_assoc,
        Nat.add_comm (leafMin l) 1] using htail)]
    simp only [processLeaf, List.length_append, hlen, List.map_cons, List.sum_cons]
    omega

lemma processLeaves_mcq_ids (synth : Synth) (ls : List Leaf) (k : Nat) (acc : BundleAcc)
    (hacc : acc.mcqs.map (fun m => m.id) = idsFrom 1 acc.mcqs.length)
    (h : mcqRunDedupFreeB synth ls k (acc.mcqs.length + 1) = true) :
    (processLeaves synth ls k acc).mcqs.map (fun m => m.id)
      = idsFrom 1 (processLeaves synth ls k acc).mcqs.length := by
  induction ls generalizing k acc with
  | nil => simpa [processLeaves] using hacc
  | cons l rest ih =>
    simp only [mcqRunDedupFreeB, Bool.and_eq_true, decide_eq_true_eq] at h
    have hlen : (generateMcqsForTopic (synth.mcqResponses k) (leafMin l)
        (acc.mcqs.length + 1)).length = leafMin l :=
      generateMcqsForTopic_length_of_nodup _ _ _ h.1
    have hids : (generateMcqsForTopic (synth.mcqResponses k) (leafMin l)
        (acc.mcqs.length + 1)).map (fun m => m.id)
        = idsFrom (acc.mcqs.length + 1) (leafMin l) :=
      generateMcqsForTopic_map_id_of_nodup _ _ _ h.1
    have htail := h.2
    rw [hlen] at htail
    simp only [processLeaves]
    apply ih
    · simp only [processLeaf, List.map_append, hacc, hids, List.length_append, hlen]
      have := idsFrom_append 1 acc.mcqs.length (leafMin l)
      rw [Nat.add_comm 1 acc.mcqs.length] at this
      exact this
    · simpa only [processLeaf, List.length_append, hlen, Nat.add_assoc,
        Nat.add_comm (leafMin l) 1] using htail

lemma processLeaves_subj_ids (synth : Synth) (ls : List Leaf) (k : Nat) (acc : BundleAcc)
    (hacc : acc.subjective.map (fun q => q.id) = idsFrom 1 acc.subjective.length)
    (h : subjRunDedupFreeB synth ls k (acc.subjective.length + 1) = true) :
    (processLeaves synth ls k acc).subjective.map (fun q => q.id)
      = idsFrom 1 (processLeaves synth ls k acc).subjective.length := by
  induction ls generalizing k acc with
  | nil => simpa [processLeaves] using hacc
  | cons l rest ih =>
    simp only [subjRunDedupFreeB, Bool.and_eq_true, decide_eq_true_eq] at h
    have hlen : (generateSubjectiveForTopic (synth.subjectiveResponses k) (leafMin l)
        (acc.subjective.length + 1)).length = leafMin l :=
      generateSubjectiveForTopic_length_of_nodup _ _ _ h.1
    have hids : (generateSubjectiveForTopic (synth.subjectiveResponses k) (leafMin l)
        (acc.subjective.length + 1)).map (fun q => q.id)
        = idsFrom (acc.subjective.length + 1) (leafMin l) :=
      generateSubjectiveForTopic_map_id_of_nodup _ _ _ h.1
    have htail := h.2
    rw [hlen] at htail
    simp only [processLeaves]
    apply ih
    · simp only [processLeaf, List.map_append, hacc, hids, List.length_append, hlen]
      have := idsFrom_append 1 acc.subjective.length (leafMin l)
      rw [Nat.add_comm 1 acc.subjective.length] at this
      exact this
    · simpa only [processLeaf, List.length_append, hlen, Nat.add_assoc,
        Nat.add_comm (leafMin l) 1] using htail

/-! Helper lemmas about the run loop. -/

lemma updateIndexPage_processedPdfs (st : RunState) :
    (updateIndexPage st).processedPdfs = st.processedPdfs := by
  unfold updateIndexPage
  split <;> rfl

lemma updateIndexPage_publishCount (st : RunState) :
    (updateIndexPage st).publishCount = st.publishCount := by
  unfold updateIndexPage
  split <;> rfl

lemma completeJob_processedPdfs (env : JobEnv) (st : RunState) (pdf : String) :
    (completeJob env st pdf).processedPdfs
      = st.processedPdfs ++ (processSinglePdf env pdf).toList := by
  unfold completeJob
  cases processSinglePdf env pdf with
  | none => simp
  | some info => simp [updateIndexPage_processedPdfs]

lemma completeJob_publishCount (env : JobEnv) (st : RunState) (pdf : String) :
    (completeJob env st pdf).publishCount = st.publishCount := by
  unfold completeJob
  cases processSinglePdf env pdf with
  | none => rfl
  | some info => simp [updateIndexPage_publishCount]

lemma completeJob_trace_extend (env : JobEnv) (st : RunState) (pdf : String) :
    ∃ t, (completeJob env st pdf).trace = st.trace ++ t := by
  cases h : processSinglePdf env pdf with
  | none => exact ⟨[Event.jobFailure pdf], by simp [completeJob, h]⟩
  | some info =>
    simp only [completeJob, h]
    unfold updateIndexPage
    split
    · exact ⟨[Event.jobSuccess pdf], rfl⟩
    · exact ⟨[Event.jobSuccess pdf,
        Event.indexWrite (IndexContent.resultsPage (st.processedPdfs ++ [info]))], by simp⟩

lemma completeJob_indexFile_of_fail (env : JobEnv) (st : RunState) (pdf : String)
    (h : processSinglePdf env pdf = none) :
    (completeJob env st pdf).indexFile = st.indexFile := by
  unfold completeJob
  rw [h]

lemma runJobs_processedPdfs (env : JobEnv) (l : List String) (st : RunState) :
    (runJobs env l st).processedPdfs
      = st.processedPdfs ++ l.filterMap (processSinglePdf env) := by
  induction l generalizing st with
  | nil => simp [runJobs]
  | cons pdf rest ih =>
    simp only [runJobs, ih, completeJob_processedPdfs, List.filterMap_cons]
    cases processSinglePdf env pdf <;> simp

lemma runJobs_publishCount (env : JobEnv) (l : List String) (st : RunState) :
    (runJobs env l st).publishCount = st.publishCount := by
  induction l generalizing st with
  | nil => rfl
  | cons pdf rest ih => simp only [runJobs, ih, completeJob_publishCount]

lemma runJobs_trace_extend (env : JobEnv) (l : List String) (st : RunState) :
    ∃ t, (runJobs env l st).trace = st.trace ++ t := by
  induction l generalizing st with
  | nil => exact ⟨[], by simp [runJobs]⟩
  | cons pdf rest ih =>
    obtain ⟨t1, h1⟩ := completeJob_trace_extend env st pdf
    obtain ⟨t2, h2⟩ := ih (completeJob env st pdf)
    exact ⟨t1 ++ t2, by simp [runJobs, h2, h1]⟩

lemma runJobs_indexFile_of_allFail (env : JobEnv) (l : List String) (st : RunState)
    (h : ∀ p ∈ l, processSinglePdf env p = none) :
    (runJobs env l st).indexFile = st.indexFile := by
  induction l generalizing st with
  | nil => rfl
  | cons pdf rest ih =>
    simp only [runJobs]
    rw [ih (completeJob env st pdf) fun p hp => h p (List.mem_cons_of_mem pdf hp),
      completeJob_indexFile_of_fail env st pdf (h pdf (List.mem_cons_self pdf rest))]

lemma deployIfNonempty_processedPdfs (st : RunState) :
    (deployIfNonempty st).processedPdfs = st.processedPdfs := by
  unfold deployIfNonempty
  split <;> rfl

lemma deployIfNonempty_indexFile (st : RunState) :
    (deployIfNonempty st).indexFile = st.indexFile := by
  unfold deployIfNonempty
  split <;> rfl

lemma deployIfNonempty_trace_extend (st : RunState) :
    ∃ t, (deployIfNonempty st).trace = st.trace ++ t := by
  unfold deployIfNonempty
  split
  · exact ⟨[], by simp⟩
  · exact ⟨[Event.publish], rfl⟩

lemma processSinglePdf_originalPdf (env : JobEnv) (pdf : String) (r : JobResult)
    (h : processSinglePdf env pdf = some r) : r.originalPdf = pdf := by
  unfold processSinglePdf at h
  cases henv : env.outcome pdf with
  | none => rw [henv] at h; exact absurd h (by simp)
  | some cd =>
    rw [henv] at h
    cases h
    rfl

lemma filterMap_map_originalPdf (env : JobEnv) (l : List String) :
    ((l.filterMap (processSinglePdf env)).map fun r => r.originalPdf)
      = l.filter fun p => (processSinglePdf env p).isSome := by
  induction l with
  | nil => rfl
  | cons pdf rest ih =>
    simp only [List.filterMap_cons, List.filter_cons]
    cases hp : processSinglePdf env pdf with
    | none => simpa [hp] using ih
    | some r =>
      simp only [List.map_cons, ih, hp, Option.isSome_some, if_true]
      rw [processSinglePdf_originalPdf env pdf r hp]

/-! Concrete instances used by counterexamples and witnesses. -/

/-- A topic structure with one main topic and no subtopics (the per-topic
minimum of three items applies). -/
def tsOneTopic : List TopicInfo := [{ mainTopic := "Rivers", subtopics := [] }]

/-- A parsed MCQ with question "A?". -/
def mcqQ1 : MCQ :=
  { id := 1, question := "A?", options := ["O1", "O2", "O3", "O4"], correctAnswer := 0 }

/-- A parsed MCQ whose question " a? " equals `mcqQ1.question` after
lowercasing and stripping. -/
def mcqQ1Dup : MCQ :=
  { id := 2, question := " a? ", options := ["O1", "O2", "O3", "O4"], correctAnswer := 1 }

/-- A parsed MCQ with the distinct question "B?". -/
def mcqQ2 : MCQ :=
  { id := 3, question := "B?", options := ["O1", "O2", "O3", "O4"], correctAnswer := 0 }

/-- A parsed MCQ with the distinct question "C?". -/
def mcqQ3 : MCQ :=
  { id := 4, question := "C?", options := ["O1", "O2", "O3", "O4"], correctAnswer := 0 }

/-- A synthesizer draw whose MCQ batch holds a near-duplicate question. -/
def synthWithDupMcq : Synth :=
  { conceptResponses := fun _ => []
    mcqResponses := fun _ => [mcqQ1, mcqQ1Dup]
    subjectiveResponses := fun _ => [] }

/-- A synthesizer draw with three parsed MCQs, the second a near-duplicate
of the first. -/
def synthTripleDupMcq : Synth :=
  { conceptResponses := fun _ => []
    mcqResponses := fun _ => [mcqQ1, mcqQ1Dup, mcqQ2]
    subjectiveResponses := fun _ => [] }

/-- A synthesizer draw with three distinct parsed MCQs. -/
def synthDistinctMcq : Synth :=
  { conceptResponses := fun _ => []
    mcqResponses := fun _ => [mcqQ1, mcqQ2, mcqQ3]
    subjectiveResponses := fun _ => [] }

/-- Another draw with three distinct MCQs whose question texts differ from
`synthDistinctMcq`. -/
def synthDistinctMcq2 : Synth :=
  { conceptResponses := fun _ => []
    mcqResponses := fun _ =>
      [{ id := 1, question := "X?", options := ["O1", "O2", "O3", "O4"], correctAnswer := 2 },
       { id := 2, question := "Y?", options := ["O1", "O2", "O3", "O4"], correctAnswer := 3 },
       { id := 3, question := "Z?", options := ["O1", "O2", "O3", "O4"], correctAnswer := 1 }]
    subjectiveResponses := fun _ => [] }

/-- A main-topic generation unit (minimum three). -/
def mainLeafW : Leaf := { label := "Rivers", conceptTopic := "Rivers", isSubtopic := false }

/-- The backfill item `_generate_additional_mcqs` produces at id 2. -/
def mcqProbe : MCQ :=
  { id := 2, question := "Additional MCQ question 2?"
    options := ["Option A", "Option B", "Option C", "Option D"], correctAnswer := 0 }

/-! Claims about the enhanced processor. -/

/-- Claim C9 (confirmed): in every bundle returned by
`process_pdf_with_structured_content` the stats fields agree with the
content: `total_concepts`, `total_mcqs` and `total_subjective` are the
lengths of the three content lists, `main_topics` is the number of
topic-structure entries, and `total_subtopics` is the sum of the subtopic
counts over all main topics. -/
theorem stats_fields_consistent (synth : Synth) (ts : List TopicInfo) :
    (processPdfWithStructuredContent synth ts).stats.totalConcepts
        = (processPdfWithStructuredContent synth ts).concepts.length
  ∧ (processPdfWithStructuredContent synth ts).stats.totalMcqs
        = (processPdfWithStructuredContent synth ts).mcqs.length
  ∧ (processPdfWithStructuredContent synth ts).stats.totalSubjective
        = (processPdfWithStructuredContent synth ts).subjective.length
  ∧ (processPdfWithStructuredContent synth ts).stats.mainTopics = ts.length
  ∧ (processPdfWithStructuredContent synth ts).stats.totalSubtopics
        = (ts.map fun t => t.subtopics.length).sum :=
  ⟨rfl, rfl, rfl, rfl, rfl⟩

/-- The per-topic MCQ generation order that claim C1 describes, written from
the specification's words for refinement comparison only (not from the
source): duplicates are removed first, the backfill shortfall is counted on
the deduplicated list, and a single backfill pass then tops it up to the
minimum. -/
def generateMcqsForTopicSpecOrder (parsed : List MCQ) (minMcqs startId : Nat) : List MCQ :=
  let deduped := dedupMcqs (reassignMcqIds parsed startId) []
  if deduped.length < minMcqs then
    deduped ++ generateAdditionalMcqs (minMcqs - deduped.length) (startId + deduped.length)
  else deduped

/-- Claim C1 counterexample: on a parsed batch holding a case/whitespace
duplicate, the source's generator (backfill before deduplication, no second
pass) returns 2 items, while the order the claim describes (dedup before
the shortfall count, then one backfill pass) would return the full minimum
of 3. -/
theorem dedup_order_counterexample :
    (generateMcqsForTopic [mcqQ1, mcqQ1Dup] 3 1).length = 2
  ∧ (generateMcqsForTopicSpecOrder [mcqQ1, mcqQ1Dup] 3 1).length = 3 := by
  constructor <;> decide

lemma mem_mcqsWithBackfill (pm : List MCQ) (minC sid : Nat) (m : MCQ)
    (hm : m ∈ mcqsWithBackfill pm minC sid) :
    m ∈ reassignMcqIds pm sid
  ∨ m ∈ generateAdditionalMcqs (minC - pm.length) (sid + pm.length) := by
  simp only [mcqsWithBackfill] at hm
  split at hm
  · rw [reassignMcqIds_length] at hm
    exact List.mem_append.mp hm
  · exact Or.inl hm

lemma mem_subjsWithBackfill (ps : List SubjectiveQ) (minC sid : Nat) (q : SubjectiveQ)
    (hq : q ∈ subjsWithBackfill ps minC sid) :
    q ∈ reassignSubjIds ps sid
  ∨ q ∈ generateAdditionalSubjective (minC - ps.length) (sid + ps.length) := by
  simp only [subjsWithBackfill] at hq
  split at hq
  · rw [reassignSubjIds_length] at hq
    exact List.mem_append.mp hq
  · exact Or.inl hq

/-- Claim C1 (amended): backfill runs at most once per topic and before
deduplication — the shortfall is counted on the parsed batch, a single
placeholder batch of size `min - len(parsed)` (empty when the batch was
full) tops it up to at least the minimum, duplicates are removed only
afterwards, and the list is truncated to the minimum; if deduplication
drops the count below the minimum no further backfill runs, so the topic's
items are returned short rather than looping.  Every returned item comes
either from the parsed batch (with reassigned id) or from that single
placeholder backfill batch. -/
theorem dedup_order_amended (pm : List MCQ) (ps : List SubjectiveQ)
    (minC sidM sidS : Nat) :
    minC ≤ (mcqsWithBackfill pm minC sidM).length
  ∧ (generateMcqsForTopic pm minC sidM).length ≤ minC
  ∧ (∀ m ∈ generateMcqsForTopic pm minC sidM,
        m ∈ reassignMcqIds pm sidM
      ∨ m ∈ generateAdditionalMcqs (minC - pm.length) (sidM + pm.length))
  ∧ minC ≤ (subjsWithBackfill ps minC sidS).length
  ∧ (generateSubjectiveForTopic ps minC sidS).length ≤ minC
  ∧ (∀ q ∈ generateSubjectiveForTopic ps minC sidS,
        q ∈ reassignSubjIds ps sidS
      ∨ q ∈ generateAdditionalSubjective (minC - ps.length) (sidS + ps.length)) := by
  refine ⟨le_mcqsWithBackfill_length pm minC sidM,
    generateMcqsForTopic_length_le pm minC sidM, ?_,
    le_subjsWithBackfill_length ps minC sidS,
    generateSubjectiveForTopic_length_le ps minC sidS, ?_⟩
  · intro m hm
    apply mem_mcqsWithBackfill
    have h1 : m ∈ dedupMcqs (mcqsWithBackfill pm minC sidM) [] :=
      (List.take_sublist minC _).subset hm
    exact (dedupMcqs_sublist _ []).subset h1
  · intro q hq
    apply mem_subjsWithBackfill
    have h1 : q ∈ dedupSubjs (subjsWithBackfill ps minC sidS) [] :=
      (List.take_sublist minC _).subset hq
    exact (dedupSubjs_sublist _ []).subset h1

/-- Witness for the amended claim C1 at a concrete input: one parsed MCQ
plus the minimum of three forces a backfill batch; the second returned item
is the first placeholder, and the pre-dedup list reaches the minimum. -/
theorem dedup_order_amended_witness :
    3 ≤ (mcqsWithBackfill [mcqQ1] 3 1).length
  ∧ (mcqProbe ∈ reassignMcqIds [mcqQ1] 1
      ∨ mcqProbe ∈ generateAdditionalMcqs (3 - [mcqQ1].length) (1 + [mcqQ1].length)) :=
  ⟨(dedup_order_amended [mcqQ1] [] 3 1 1).1,
   (dedup_order_amended [mcqQ1] [] 3 1 1).2.2.1 mcqProbe (by decide)⟩

/-- Claim C2 counterexample: with one main topic (no subtopics) and a
synthesizer batch containing a case/whitespace duplicate question, the
bundle holds only 2 MCQs, below the claimed minimum of 3: backfill ran
before deduplication and is never rerun. -/
theorem minimum_count_counterexample :
    (processPdfWithStructuredContent synthWithDupMcq tsOneTopic).mcqs.length = 2
  ∧ ¬ (3 ≤ (processPdfWithStructuredContent synthWithDupMcq tsOneTopic).mcqs.length) := by
  constructor <;> decide

/-- Claim C2 (amended): after deduplication and the single backfill pass, a
topic with no subtopics yields at most 3 MCQs and 3 subjective items and a
subtopic at most 2 of each (`leafMin`), with equality whenever
deduplication removes nothing — that is, whenever the post-backfill
normalized question texts are pairwise distinct; when a duplicate is
removed the topic can be returned short. -/
theorem minimum_count_amended (l : Leaf) (pm : List MCQ) (ps : List SubjectiveQ)
    (sidM sidS : Nat) :
    (generateMcqsForTopic pm (leafMin l) sidM).length ≤ leafMin l
  ∧ (generateSubjectiveForTopic ps (leafMin l) sidS).length ≤ leafMin l
  ∧ (((mcqsWithBackfill pm (leafMin l) sidM).map fun m => normalizeQ m.question).Nodup →
      (generateMcqsForTopic pm (leafMin l) sidM).length = leafMin l)
  ∧ (((subjsWithBackfill ps (leafMin l) sidS).map fun q => normalizeQ q.question).Nodup →
      (generateSubjectiveForTopic ps (leafMin l) sidS).length = leafMin l) :=
  ⟨generateMcqsForTopic_length_le pm (leafMin l) sidM,
   generateSubjectiveForTopic_length_le ps (leafMin l) sidS,
   fun h => generateMcqsForTopic_length_of_nodup pm (leafMin l) sidM h,
   fun h => generateSubjectiveForTopic_length_of_nodup ps (leafMin l) sidS h⟩

/-- Witness for the amended claim C2 at a concrete input: empty parsed
batches backfill to exactly the minimum of three for a main topic. -/
theorem minimum_count_amended_witness :
    (generateMcqsForTopic [] (leafMin mainLeafW) 1).length = leafMin mainLeafW
  ∧ (generateSubjectiveForTopic [] (leafMin mainLeafW) 1).length = leafMin mainLeafW :=
  ⟨(minimum_count_amended mainLeafW [] [] 1 1).2.2.1 (by decide),
   (minimum_count_amended mainLeafW [] [] 1 1).2.2.2 (by decide)⟩

/-- Claim C3 counterexample: after deduplication removes the middle parsed
MCQ, the bundle's MCQ identifiers are `[1, 3]` — not the contiguous range
`1..2` the claim asserts. -/
theorem identifier_range_counterexample :
    ((processPdfWithStructuredContent synthTripleDupMcq tsOneTopic).mcqs.map fun m => m.id)
      = [1, 3]
  ∧ ¬ (((processPdfWithStructuredContent synthTripleDupMcq tsOneTopic).mcqs.map fun m => m.id)
      = idsFrom 1 (processPdfWithStructuredContent synthTripleDupMcq tsOneTopic).mcqs.length) := by
  constructor <;> decide

/-- Claim C3 (amended): provided no per-topic deduplication removes an item
anywhere in the run, the identifiers of the bundle's MCQ sequence form the
contiguous range `1..len(mcqs)` with no repeats and likewise for the
subjective sequence, assigned as a running counter across all topics and
subtopics in document order; when deduplication does remove an item the
range can have gaps and later topics can reuse surviving identifiers. -/
theorem identifier_range_amended (synth : Synth) (ts : List TopicInfo)
    (hm : mcqRunDedupFreeB synth (leavesOf ts) 0 1 = true)
    (hs : subjRunDedupFreeB synth (leavesOf ts) 0 1 = true) :
    ((processPdfWithStructuredContent synth ts).mcqs.map fun m => m.id)
      = idsFrom 1 (processPdfWithStructuredContent synth ts).mcqs.length
  ∧ ((processPdfWithStructuredContent synth ts).subjective.map fun q => q.id)
      = idsFrom 1 (processPdfWithStructuredContent synth ts).subjective.length := by
  constructor
  · exact processLeaves_mcq_ids synth (leavesOf ts) 0
      { concepts := [], mcqs := [], subjective := [] } (by simp [idsFrom]) hm
  · exact processLeaves_subj_ids synth (leavesOf ts) 0
      { concepts := [], mcqs := [], subjective := [] } (by simp [idsFrom]) hs

/-- Witness for the amended claim C3: a dedup-free concrete run has MCQ
identifiers `1..3` and subjective identifiers `1..3`. -/
theorem identifier_range_amended_witness :
    ((processPdfWithStructuredContent synthDistinctMcq tsOneTopic).mcqs.map fun m => m.id)
      = idsFrom 1 (processPdfWithStructuredContent synthDistinctMcq tsOneTopic).mcqs.length
  ∧ ((processPdfWithStructuredContent synthDistinctMcq tsOneTopic).subjective.map fun q => q.id)
      = idsFrom 1 (processPdfWithStructuredContent synthDistinctMcq tsOneTopic).subjective.length :=
  identifier_range_amended synthDistinctMcq tsOneTopic (by decide) (by decide)

/-- Claim C8 counterexample: two draws of the synthesizer on the same topic
structure — one with three distinct MCQ questions, one whose batch holds a
near-duplicate — give different `total_mcqs`, so the stats counts do depend
on synthesizer content, not only on the backfill contract. -/
theorem deterministic_counts_counterexample :
    (processPdfWithStructuredContent synthDistinctMcq tsOneTopic).stats.totalMcqs = 3
  ∧ (processPdfWithStructuredContent synthTripleDupMcq tsOneTopic).stats.totalMcqs = 2
  ∧ (processPdfWithStructuredContent synthDistinctMcq tsOneTopic).stats
      ≠ (processPdfWithStructuredContent synthTripleDupMcq tsOneTopic).stats := by
  refine ⟨by decide, by decide, by decide⟩

/-- The total item count prescribed by the minimum-count contract for a
topic structure: 3 per main topic without subtopics, 2 per subtopic. -/
def minTotal (ts : List TopicInfo) : Nat := ((leavesOf ts).map leafMin).sum

lemma stats_of_dedupFree (s : Synth) (ts : List TopicInfo)
    (hm : mcqRunDedupFreeB s (leavesOf ts) 0 1 = true)
    (hs : subjRunDedupFreeB s (leavesOf ts) 0 1 = true) :
    (processPdfWithStructuredContent s ts).stats
      = { totalConcepts := (leavesOf ts).length
          totalMcqs := minTotal ts
          totalSubjective := minTotal ts
          mainTopics := ts.length
          totalSubtopics := subtopicTotal ts } := by
  have hc := processLeaves_concepts_length s (leavesOf ts) 0
    { concepts := [], mcqs := [], subjective := [] }
  have hmq := processLeaves_mcq_length s (leavesOf ts) 0
    { concepts := [], mcqs := [], subjective := [] } hm
  have hsj := processLeaves_subj_length s (leavesOf ts) 0
    { concepts := [], mcqs := [], subjective := [] } hs
  simp only [processPdfWithStructuredContent, Stats.mk.injEq]
  refine ⟨?_, ?_, ?_, trivial, trivial⟩
  · simpa using hc
  · simpa [minTotal] using hmq
  · simpa [minTotal] using hsj

/-- Claim C8 (amended): two runs over the same inputs have identical stats
counts provided both runs produce the same topic structure and neither
run's per-topic deduplication removes an item; under those conditions the
counts are a function of the topic structure alone — one concept per
generation unit and the minimum-count totals for MCQs and subjective items
— even though the synthesizer's content text differs between the runs. -/
theorem deterministic_counts_amended (s1 s2 : Synth) (ts : List TopicInfo)
    (h1m : mcqRunDedupFreeB s1 (leavesOf ts) 0 1 = true)
    (h1s : subjRunDedupFreeB s1 (leavesOf ts) 0 1 = true)
    (h2m : mcqRunDedupFreeB s2 (leavesOf ts) 0 1 = true)
    (h2s : subjRunDedupFreeB s2 (leavesOf ts) 0 1 = true) :
    (processPdfWithStructuredContent s1 ts).stats
      = (processPdfWithStructuredContent s2 ts).stats
  ∧ (processPdfWithStructuredContent s1 ts).stats
      = { totalConcepts := (leavesOf ts).length
          totalMcqs := minTotal ts
          totalSubjective := minTotal ts
          mainTopics := ts.length
          totalSubtopics := subtopicTotal ts } :=
  ⟨(stats_of_dedupFree s1 ts h1m h1s).trans (stats_of_dedupFree s2 ts h2m h2s).symm,
   stats_of_dedupFree s1 ts h1m h1s⟩

/-- Witness for the amended claim C8: two concrete dedup-free draws with
different question texts give identical stats. -/
theorem deterministic_counts_amended_witness :
    (processPdfWithStructuredContent synthDistinctMcq tsOneTopic).stats
      = (processPdfWithStructuredContent synthDistinctMcq2 tsOneTopic).stats
  ∧ (processPdfWithStructuredContent synthDistinctMcq tsOneTopic).stats
      = { totalConcepts := (leavesOf tsOneTopic).length
          totalMcqs := minTotal tsOneTopic
          totalSubjective := minTotal tsOneTopic
          mainTopics := tsOneTopic.length
          totalSubtopics := subtopicTotal tsOneTopic } :=
  deterministic_counts_amended synthDistinctMcq synthDistinctMcq2 tsOneTopic
    (by decide) (by decide) (by decide) (by decide)

/-! Claims about the parallel run loop. -/

lemma run_processedPdfs (env : JobEnv) (inputs order : List String)
    (hperm : order.Perm inputs) :
    (processAllPdfsParallel env inputs order).processedPdfs
      = order.filterMap (processSinglePdf env) := by
  unfold processAllPdfsParallel
  split
  · rename_i h
    have hin : inputs = [] := by simpa using h
    subst hin
    have : order = [] := List.perm_nil.mp hperm
    simp [this, initialState]
  · rw [deployIfNonempty_processedPdfs, runJobs_processedPdfs]
    simp [createInitialIndexPage, initialState]

/-- A concrete environment where exactly the input "pdfs/b.pdf" fails and
every other job succeeds. -/
def envProbe : JobEnv :=
  { outcome := fun p =>
      if p = "pdfs/b.pdf" then none
      else some { title := "T", icon := "📖", filename := "T.html"
                  stats := { totalConcepts := 1, totalMcqs := 3, totalSubjective := 3
                             mainTopics := 1, totalSubtopics := 0 }
                  timestamp := 0 } }

/-- A concrete environment where every job fails. -/
def envAllFail : JobEnv := { outcome := fun _ => none }

/-- Three concrete inputs, as discovered. -/
def inputsProbe : List String := ["pdfs/a.pdf", "pdfs/b.pdf", "pdfs/c.pdf"]

/-- A completion order differing from the input order. -/
def orderProbe : List String := ["pdfs/c.pdf", "pdfs/b.pdf", "pdfs/a.pdf"]

/-- Claim C4 (confirmed): a per-job failure is isolated to that job.  The
run always completes, its aggregate result is exactly the per-job results
of the successfully processed inputs in completion order, and an input
whose job raised (outcome `none`) contributes nothing to the aggregate
state. -/
theorem failure_isolation (env : JobEnv) (inputs order : List String)
    (hperm : order.Perm inputs) :
    (processAllPdfsParallel env inputs order).processedPdfs
      = order.filterMap (processSinglePdf env)
  ∧ ((processAllPdfsParallel env inputs order).processedPdfs.map fun r => r.originalPdf)
      = order.filter (fun p => (processSinglePdf env p).isSome)
  ∧ ∀ p ∈ order, processSinglePdf env p = none →
      ∀ r ∈ (processAllPdfsParallel env inputs order).processedPdfs, r.originalPdf ≠ p := by
  have hmain := run_processedPdfs env inputs order hperm
  refine ⟨hmain, by rw [hmain, filterMap_map_originalPdf], ?_⟩
  intro p hp hnone r hr hEq
  have hmem : r.originalPdf ∈ order.filter fun q => (processSinglePdf env q).isSome := by
    rw [← filterMap_map_originalPdf]
    exact List.mem_map_of_mem _ (hmain ▸ hr)
  rw [hEq] at hmem
  have := List.of_mem_filter hmem
  rw [hnone] at this
  simp at this

/-- Witness for claim C4: with input #2 failing, the aggregate holds
results for inputs #1 and #3 only, in completion order. -/
theorem failure_isolation_witness :
    ((processAllPdfsParallel envProbe inputsProbe orderProbe).processedPdfs
      = orderProbe.filterMap (processSinglePdf envProbe))
  ∧ (((processAllPdfsParallel envProbe inputsProbe orderProbe).processedPdfs.map
        fun r => r.originalPdf)
      = orderProbe.filter (fun p => (processSinglePdf envProbe p).isSome))
  ∧ ∀ p ∈ orderProbe, processSinglePdf envProbe p = none →
      ∀ r ∈ (processAllPdfsParallel envProbe inputsProbe orderProbe).processedPdfs,
        r.originalPdf ≠ p :=
  failure_isolation envProbe inputsProbe orderProbe (by decide)

/-- Claim C5 (confirmed): after all jobs complete the Publisher is invoked
exactly once when at least one JobResult was produced and zero times when
none was; with zero discovered inputs the run returns the untouched initial
state — empty aggregate, no index write, no deployment attempt. -/
theorem publish_once_iff_results (env : JobEnv) (inputs order : List String) :
    (processAllPdfsParallel env inputs order).publishCount
      = (if (processAllPdfsParallel env inputs order).processedPdfs.isEmpty then 0 else 1)
  ∧ (inputs = [] → processAllPdfsParallel env inputs order = initialState) := by
  constructor
  · unfold processAllPdfsParallel
    split
    · simp [initialState]
    · rw [deployIfNonempty_processedPdfs]
      unfold deployIfNonempty
      split <;> rename_i hne
      · rw [runJobs_publishCount]
        rfl
      · show (runJobs env order
          (createInitialIndexPage inputs.length initialState)).publishCount + 1 = 1
        rw [runJobs_publishCount]
        rfl
  · intro h
    subst h
    simp [processAllPdfsParallel]

/-- Witness for claim C5 at the empty-input run: no results, no publish,
untouched state. -/
theorem publish_once_iff_results_witness :
    ((processAllPdfsParallel envProbe ([] : List String) []).publishCount
      = (if (processAllPdfsParallel envProbe ([] : List String) []).processedPdfs.isEmpty
          then 0 else 1))
  ∧ processAllPdfsParallel envProbe ([] : List String) [] = initialState :=
  ⟨(publish_once_iff_results envProbe [] []).1,
   (publish_once_iff_results envProbe [] []).2 rfl⟩

/-- Claim C6 (confirmed): for a non-empty input set, the aggregate result
of `runAll` has at most one entry per input, every entry corresponds to a
distinct input, and the entries appear in completion order (a subsequence
of the completion order, not of the input order). -/
theorem results_bounded_distinct (env : JobEnv) (inputs order : List String)
    (hperm : order.Perm inputs) (hnd : inputs.Nodup) (_hne : inputs ≠ []) :
    (processAllPdfsParallel env inputs order).processedPdfs.length ≤ inputs.length
  ∧ ((processAllPdfsParallel env inputs order).processedPdfs.map fun r => r.originalPdf).Nodup
  ∧ (∀ r ∈ (processAllPdfsParallel env inputs order).processedPdfs, r.originalPdf ∈ inputs)
  ∧ List.Sublist
      ((processAllPdfsParallel env inputs order).processedPdfs.map fun r => r.originalPdf)
      order := by
  have hmain := run_processedPdfs env inputs order hperm
  have hmap : ((processAllPdfsParallel env inputs order).processedPdfs.map
      fun r => r.originalPdf) = order.filter (fun p => (processSinglePdf env p).isSome) := by
    rw [hmain, filterMap_map_originalPdf]
  have hsub : List.Sublist
      ((processAllPdfsParallel env inputs order).processedPdfs.map fun r => r.originalPdf)
      order := by
    rw [hmap]
    exact List.filter_sublist order
  refine ⟨?_, ?_, ?_, hsub⟩
  · have h1 : ((processAllPdfsParallel env inputs order).processedPdfs.map
        fun r => r.originalPdf).length ≤ order.length := hsub.length_le
    rw [List.length_map] at h1
    exact h1.trans (le_of_eq hperm.length_eq)
  · exact hsub.nodup (hperm.nodup_iff.mpr hnd)
  · intro r hr
    have : r.originalPdf ∈ order :=
      hsub.subset (List.mem_map_of_mem _ hr)
    exact hperm.subset this

/-- Witness for claim C6 at the three-input run with a failing middle
job and a reversed completion order. -/
theorem results_bounded_distinct_witness :
    (processAllPdfsParallel envProbe inputsProbe orderProbe).processedPdfs.length
      ≤ inputsProbe.length
  ∧ ((processAllPdfsParallel envProbe inputsProbe orderProbe).processedPdfs.map
      fun r => r.originalPdf).Nodup
  ∧ (∀ r ∈ (processAllPdfsParallel envProbe inputsProbe orderProbe).processedPdfs,
      r.originalPdf ∈ inputsProbe)
  ∧ List.Sublist
      ((processAllPdfsParallel envProbe inputsProbe orderProbe).processedPdfs.map
        fun r => r.originalPdf)
      orderProbe :=
  results_bounded_distinct envProbe inputsProbe orderProbe (by decide) (by decide) (by decide)

/-- Claim C7 (confirmed): with at least one input the very first event of
the run — before any job completion and before any other write — is the
write of the initial placeholder index page showing `total = len(inputs)`
and `completed = 0`, so the on-disk index is never in an undefined state
during the run. -/
theorem initial_index_first (env : JobEnv) (inputs order : List String)
    (hne : inputs ≠ []) :
    (processAllPdfsParallel env inputs order).trace.head?
      = some (Event.indexWrite (IndexContent.initialPage inputs.length 0)) := by
  unfold processAllPdfsParallel
  rw [if_neg (by simpa using hne)]
  obtain ⟨t1, h1⟩ :=
    runJobs_trace_extend env order (createInitialIndexPage inputs.length initialState)
  obtain ⟨t2, h2⟩ :=
    deployIfNonempty_trace_extend
      (runJobs env order (createInitialIndexPage inputs.length initialState))
  rw [h2, h1]
  simp [createInitialIndexPage, initialState]

/-- Witness for claim C7 at the three-input run. -/
theorem initial_index_first_witness :
    (processAllPdfsParallel envProbe inputsProbe orderProbe).trace.head?
      = some (Event.indexWrite (IndexContent.initialPage inputsProbe.length 0)) :=
  initial_index_first envProbe inputsProbe orderProbe (by decide)

/-- Claim C10 (confirmed): `update_index_page` leaves the index file (and
the whole state) unchanged whenever the aggregate of processed results is
empty; consequently, in a run where every job fails the on-disk index still
holds the initial placeholder page and is never rewritten to an empty
results page. -/
theorem index_frame_on_failure (env : JobEnv) (inputs order : List String) :
    (∀ st : RunState, st.processedPdfs = [] → updateIndexPage st = st)
  ∧ ((∀ p ∈ order, processSinglePdf env p = none) → inputs ≠ [] →
      (processAllPdfsParallel env inputs order).indexFile
        = IndexContent.initialPage inputs.length 0) := by
  constructor
  · intro st h
    unfold updateIndexPage
    rw [if_pos (by simp [h])]
  · intro hfail hne
    unfold processAllPdfsParallel
    rw [if_neg (by simpa using hne)]
    rw [deployIfNonempty_indexFile, runJobs_indexFile_of_allFail env order _ hfail]
    rfl

/-- Witness for claim C10: with every job failing, the final index file is
still the initial placeholder. -/
theorem index_frame_on_failure_witness :
    updateIndexPage initialState = initialState
  ∧ (processAllPdfsParallel envAllFail inputsProbe orderProbe).indexFile
      = IndexContent.initialPage inputsProbe.length 0 :=
  ⟨(index_frame_on_failure envAllFail inputsProbe orderProbe).1 initialState rfl,
   (index_frame_on_failure envAllFail inputsProbe orderProbe).2 (by decide) (by decide)⟩

end Learning
